import Mathlib

/-!
Verification of the UCD fetcher script (scripts/download-unicode-data.py).

The script is embedded shallowly: the filesystem is a finite map from
paths (lists of components) to nodes, an HTTP exchange is either a
transport fault or a response carrying a status and a body, and
`process_ucd` is a pure function from the script location, the network
behaviour and the initial filesystem to the final filesystem, the list
of printed lines, a flag recording whether the HTTP request was issued,
and an optional uncaught exception.
-/

namespace Unidex

/-- A node of the modelled filesystem: a regular file with byte contents,
or a directory. -/
inductive FSNode where
  | file (content : List Nat)
  | dir
deriving DecidableEq, Repr

/-- One step of POSIX path normalisation on a component list:
`.` is dropped, `..` removes the previous component, anything else is
appended. -/
def normStep (acc : List String) (c : String) : List String :=
  if c = "." then acc
  else if c = ".." then acc.dropLast
  else acc ++ [c]

/-- Normalise an absolute path given as a component list, resolving `.`
and `..` the way the operating system does. -/
def normalize (p : List String) : List String := p.foldl normStep []

/-- The modelled filesystem: an association list from paths to nodes.
Lookups compare normalised paths, mirroring resolution by the OS. -/
structure FS where
  entries : List (List String × FSNode)
deriving DecidableEq, Repr

/-- Look up the node stored at a path, after normalisation. -/
def FS.lookup (fs : FS) (p : List String) : Option FSNode :=
  (fs.entries.find? (fun e => normalize e.1 == normalize p)).map (fun e => e.2)

/-- `os.path.isfile`: true when the path resolves to a regular file. -/
def FS.isfile (fs : FS) (p : List String) : Bool :=
  match fs.lookup p with
  | some (FSNode.file _) => true
  | _ => false

/-- The uncaught Python exceptions the script can let escape:
a transport fault from `urllib.request.urlopen`, `zipfile.BadZipFile`
from opening a corrupt body, and the filesystem faults raised by
`os.makedirs` and by opening an extraction target for writing. -/
inductive PyError where
  | urlError
  | badZipFile
  | fileExistsError
  | notADirectoryError
  | isADirectoryError
deriving DecidableEq, Repr

/-- The `mkdir` system call succeeding on an absent path: append a
directory node. -/
def FS.addDir (fs : FS) (q : List String) : FS :=
  ⟨fs.entries ++ [(q, FSNode.dir)]⟩

/-- The recursion of `os.makedirs(..., exist_ok=True)` over the chain of
ancestors (shortest first): an absent level is created, an existing
directory is kept, and an existing regular file raises —
`FileExistsError` when it is the requested directory itself (exist_ok
only suppresses the error for directories), `NotADirectoryError` when
`mkdir` runs under a file ancestor. -/
def FS.makedirsGo (full : List String) :
    FS → List (List String) → FS × Option PyError
  | fs, [] => (fs, none)
  | fs, q :: rest =>
    match fs.lookup q with
    | none => FS.makedirsGo full (fs.addDir q) rest
    | some FSNode.dir => FS.makedirsGo full fs rest
    | some (FSNode.file _) =>
      if q == full then (fs, some PyError.fileExistsError)
      else (fs, some PyError.notADirectoryError)

/-- `os.makedirs(p, exist_ok=True)`: walk the normalised ancestor chain,
creating missing levels; returns the (possibly partially extended)
filesystem together with the raised error, if any. -/
def FS.makedirs (fs : FS) (p : List String) : FS × Option PyError :=
  FS.makedirsGo (normalize p) fs (normalize p).inits

/-- Store node `n` at path `p`, replacing whatever was there: the raw
write performed by `open(target, "wb")` once its checks have passed. -/
def FS.setNode (fs : FS) (p : List String) (n : FSNode) : FS :=
  ⟨(fs.entries.filter (fun e => !(normalize e.1 == normalize p))) ++
    [(normalize p, n)]⟩

/-- A member-name component that `zipfile._extract_member` keeps: its
sanitisation drops the components that are empty, the current-directory
dot or the parent-directory dots. -/
def keepComp (c : String) : Bool :=
  !(c == "") && !(c == ".") && !(c == "..")

/-- The member-name sanitisation of `zipfile._extract_member`. -/
def sanitizeMember (p : List String) : List String := p.filter keepComp

/-- `open(targetpath, "wb")` plus the byte copy: raises
`NotADirectoryError` when the parent resolves to a regular file,
`IsADirectoryError` when the target is an existing directory, and
otherwise creates or truncates the target file. -/
def FS.openWrite (fs : FS) (target : List String) (c : List Nat) :
    FS × Option PyError :=
  if fs.isfile target.dropLast then (fs, some PyError.notADirectoryError)
  else if fs.lookup target = some FSNode.dir then
    (fs, some PyError.isADirectoryError)
  else (fs.setNode target (FSNode.file c), none)

/-- Extraction of one archive member below `base`
(`zipfile._extract_member`): sanitise the member name, join it below
`base`, create the parent directories only when the parent path does not
exist yet, then open the target for writing. -/
def FS.writeEntry (fs : FS) (base : List String)
    (e : List String × List Nat) : FS × Option PyError :=
  let target := normalize (base ++ sanitizeMember e.1)
  match (if (fs.lookup target.dropLast).isSome then (fs, none)
      else fs.makedirs target.dropLast) with
  | (fs1, some err) => (fs1, some err)
  | (fs1, none) => fs1.openWrite target e.2

/-- `ZipFile.extractall(base)`: write the archive members in archive
order; the first member that faults stops extraction, leaving the
members already written in place. -/
def FS.extractAll :
    FS → List String → List (List String × List Nat) → FS × Option PyError
  | fs, _, [] => (fs, none)
  | fs, base, e :: rest =>
    match fs.writeEntry base e with
    | (fs1, some err) => (fs1, some err)
    | (fs1, none) => FS.extractAll fs1 base rest

/-- The body of an HTTP response: its byte count, and its decoding as a
ZIP archive (`none` when `zipfile.ZipFile` would reject the bytes; a
valid archive is its list of members, each a relative path with file
contents). -/
structure HttpBody where
  size : Nat
  zipEntries : Option (List (List String × List Nat))
deriving DecidableEq, Repr

/-- An HTTP response as `urllib` delivers it: a status code and a body. -/
structure HttpResponse where
  status : Nat
  body : HttpBody
deriving DecidableEq, Repr

def UNICODE_SITE : String := "https://www.unicode.org"

def UCD_ZIP_FILE : String := "Public/UCD/latest/ucd/UCD.zip"

def OUTPUT_DIRECTORY_UCD : String := "data/ucd"

/-- `root_dir = os.path.join(os.path.dirname(__file__), '..')`, with the
directory of the script given as a component list. -/
def root_dir (scriptDir : List String) : List String := scriptDir ++ [".."]

/-- `data_dir = os.path.join(root_dir, OUTPUT_DIRECTORY_UCD)`. -/
def data_dir (scriptDir : List String) : List String :=
  root_dir scriptDir ++ ["data", "ucd"]

/-- The interpreter makes `__file__` absolute, so the computed data
directory ignores the working directory of the process; the unused
first argument records that. -/
def data_dir_from (_cwd : List String) (scriptDir : List String) :
    List String :=
  data_dir scriptDir

def ucd_url : String := UNICODE_SITE ++ "/" ++ UCD_ZIP_FILE

def skipMsg : String :=
  "=> UCD data seems to exist already, skipping...\n   (to download again delete `"
    ++ OUTPUT_DIRECTORY_UCD ++ "` contents)"

def downloadingMsg : String := "=> Downloading " ++ ucd_url ++ "..."

def failMsg (s : Nat) : String :=
  "   ...download failed with status " ++ toString s

def downloadedMsg (n : Nat) : String :=
  "=> Downloaded " ++ toString n ++ " bytes, extracting..."

def extractedMsg : String :=
  "   ...UCD files extracted to `" ++ OUTPUT_DIRECTORY_UCD ++ "`"

/-- The observable outcome of a run: the final filesystem, the printed
lines in order, and whether the HTTP request was issued. -/
structure PState where
  fs : FS
  out : List String
  requested : Bool
deriving DecidableEq, Repr

/-- `process_ucd`, line by line: print a blank line; skip when the
sentinel is a regular file; otherwise create the output directory (a
filesystem fault escapes here, before the request), print the download
banner, issue the request (a transport fault escapes), return after
logging a non-200 status, print the byte count, open the body as a ZIP
(a decoding fault escapes) and extract everything (an extraction fault
escapes after a partial extraction). -/
def process_ucd (scriptDir : List String) (net : Option HttpResponse)
    (fs0 : FS) : PState × Option PyError :=
  let dd := data_dir scriptDir
  if fs0.isfile (dd ++ ["Index.txt"]) then
    (⟨fs0, ["", skipMsg], false⟩, none)
  else
    match fs0.makedirs dd with
    | (fs1, some err) => (⟨fs1, [""], false⟩, some err)
    | (fs1, none) =>
      match net with
      | none => (⟨fs1, ["", downloadingMsg], true⟩, some PyError.urlError)
      | some resp =>
        if resp.status ≠ 200 then
          (⟨fs1, ["", downloadingMsg, failMsg resp.status], true⟩, none)
        else
          match resp.body.zipEntries with
          | none =>
            (⟨fs1, ["", downloadingMsg, downloadedMsg resp.body.size],
              true⟩, some PyError.badZipFile)
          | some es =>
            match fs1.extractAll dd es with
            | (fs2, some err) =>
              (⟨fs2, ["", downloadingMsg, downloadedMsg resp.body.size],
                true⟩, some err)
            | (fs2, none) =>
              (⟨fs2, ["", downloadingMsg, downloadedMsg resp.body.size,
                extractedMsg], true⟩, none)

/-- `main()` just calls `process_ucd()`; it catches nothing. -/
def main (scriptDir : List String) (net : Option HttpResponse) (fs0 : FS) :
    PState × Option PyError :=
  process_ucd scriptDir net fs0

/-- A component that is neither `.` nor `..`. -/
def plainComp (c : String) : Bool := !(c == ".") && !(c == "..")

/-- A path none of whose components is `.` or `..`. -/
def plainPath (p : List String) : Bool := p.all plainComp

theorem find?_append_or {α : Type} (p : α → Bool) (l₁ l₂ : List α) :
    (l₁ ++ l₂).find? p = (l₁.find? p).or (l₂.find? p) := by
  induction l₁ with
  | nil => simp
  | cons a l ih =>
    by_cases h : p a
    · simp [List.find?_cons_of_pos, h]
    · simp [List.find?_cons_of_neg, h, ih]

theorem find?_filter_of_imp {α : Type} (p g : α → Bool) (l : List α)
    (h : ∀ a, g a = false → p a = false) :
    (l.filter g).find? p = l.find? p := by
  induction l with
  | nil => simp
  | cons a l ih =>
    by_cases hg : g a
    · by_cases hp : p a
      · simp [List.filter_cons, hg, List.find?_cons_of_pos, hp]
      · simp [List.filter_cons, hg, List.find?_cons_of_neg, hp, ih]
    · have hp : p a = false := h a (by simpa using hg)
      simp [List.filter_cons, hg, List.find?_cons_of_neg, hp, ih]

theorem foldl_normStep_plain (l : List String) (acc : List String)
    (h : l.all plainComp = true) : l.foldl normStep acc = acc ++ l := by
  induction l generalizing acc with
  | nil => simp
  | cons c l ih =>
    simp only [List.all_cons, Bool.and_eq_true] at h
    have hc : ¬ c = "." ∧ ¬ c = ".." := by
      have := h.1; simp [plainComp] at this; exact this
    rw [List.foldl_cons]
    rw [show normStep acc c = acc ++ [c] by
      unfold normStep; rw [if_neg hc.1, if_neg hc.2]]
    rw [ih _ h.2]
    simp

theorem normalize_plain (p : List String) (h : plainPath p = true) :
    normalize p = p := by
  simpa using foldl_normStep_plain p [] h

theorem plain_dropLast (l : List String) (h : l.all plainComp = true) :
    l.dropLast.all plainComp = true := by
  rw [List.all_eq_true] at h ⊢
  intro x hx
  exact h x (l.dropLast_sublist.subset hx)

theorem plain_normStep (acc : List String) (c : String)
    (h : acc.all plainComp = true) :
    (normStep acc c).all plainComp = true := by
  by_cases h1 : c = "."
  · simpa [normStep, h1] using h
  · by_cases h2 : c = ".."
    · simpa [normStep, h1, h2] using plain_dropLast acc h
    · have hc : plainComp c = true := by simp [plainComp, h1, h2]
      simp [normStep, h1, h2, List.all_append, h, hc]

theorem foldl_normStep_all_plain (p : List String) :
    ∀ acc, acc.all plainComp = true →
      (p.foldl normStep acc).all plainComp = true := by
  induction p with
  | nil => intro acc h; simpa using h
  | cons c l ih =>
    intro acc h
    rw [List.foldl_cons]
    exact ih _ (plain_normStep acc c h)

theorem plain_normalize (p : List String) :
    (normalize p).all plainComp = true :=
  foldl_normStep_all_plain p [] (by simp)

theorem normalize_idem (p : List String) :
    normalize (normalize p) = normalize p :=
  normalize_plain _ (plain_normalize p)

theorem normalize_append_plain (p q : List String)
    (hq : q.all plainComp = true) :
    normalize (p ++ q) = normalize p ++ q := by
  rw [normalize, List.foldl_append]
  exact foldl_normStep_plain q _ hq

theorem normalize_data_dir (sd : List String) (h : plainPath sd = true) :
    normalize (data_dir sd) = sd.dropLast ++ ["data", "ucd"] := by
  have h1 : normalize (sd ++ [".."]) = sd.dropLast := by
    rw [normalize, List.foldl_append, foldl_normStep_plain sd [] h]
    rw [List.foldl_cons, List.foldl_nil]
    unfold normStep
    rw [if_neg (by decide), if_pos rfl]
    simp
  have h2 : data_dir sd = (sd ++ [".."]) ++ ["data", "ucd"] := by
    simp [data_dir, root_dir]
  rw [h2, normalize_append_plain _ _ (by decide), h1]

theorem lookup_setNode_of_eq (fs : FS) (p q : List String) (n : FSNode)
    (h : normalize q = normalize p) :
    (fs.setNode p n).lookup q = some n := by
  unfold FS.setNode FS.lookup
  rw [find?_append_or]
  have hnone : (fs.entries.filter
      (fun e => !(normalize e.1 == normalize p))).find?
      (fun e => normalize e.1 == normalize q) = none := by
    rw [List.find?_eq_none]
    intro e he
    rcases List.mem_filter.mp he with ⟨_, hf⟩
    simp only [Bool.not_eq_eq_eq_not, Bool.not_true, beq_eq_false_iff_ne,
      ne_eq] at hf
    simp [h, hf]
  rw [hnone]
  simp [normalize_idem, h]

theorem lookup_setNode_of_ne (fs : FS) (p q : List String) (n : FSNode)
    (h : ¬ normalize q = normalize p) :
    (fs.setNode p n).lookup q = fs.lookup q := by
  unfold FS.setNode FS.lookup
  rw [find?_append_or]
  rw [find?_filter_of_imp _ _ _ (fun a hg => ?_)]
  · have hone : ([((normalize p, n))].find?
        (fun e => normalize e.1 == normalize q)) = none := by
      rw [List.find?_eq_none]
      intro e he
      simp only [List.mem_singleton] at he
      subst he
      simp only [normalize_idem]
      exact fun hb => h (beq_iff_eq.mp hb).symm
    rw [hone, Option.or_none]
  · have hg' : (normalize a.1 == normalize p) = true := by
      cases hb : (normalize a.1 == normalize p) with
      | true => rfl
      | false => rw [hb] at hg; simp at hg
    rw [beq_iff_eq.mp hg']
    exact beq_eq_false_iff_ne.mpr (fun hh => h hh.symm)


theorem isfile_setNode (fs : FS) (p q : List String) (c : List Nat) :
    (fs.setNode p (FSNode.file c)).isfile q =
      ((normalize q == normalize p) || fs.isfile q) := by
  by_cases h : normalize q = normalize p
  · unfold FS.isfile
    rw [lookup_setNode_of_eq fs p q _ h]
    simp [h]
  · unfold FS.isfile
    rw [lookup_setNode_of_ne fs p q _ h]
    have : (normalize q == normalize p) = false := by
      simpa using h
    rw [this, Bool.false_or]

theorem keep_imp_plain (p : List String) (h : p.all keepComp = true) :
    p.all plainComp = true := by
  rw [List.all_eq_true] at h ⊢
  intro a ha
  have hk := h a ha
  unfold keepComp at hk
  simp only [Bool.and_eq_true] at hk
  simp [plainComp, hk.1.2, hk.2]

theorem filter_keep_of_all (p : List String) (h : p.all keepComp = true) :
    sanitizeMember p = p := by
  unfold sanitizeMember
  rw [List.filter_eq_self]
  intro a ha
  rw [List.all_eq_true] at h
  exact h a ha

theorem lookup_addDir_some (fs : FS) (r q : List String) (x : FSNode)
    (h : fs.lookup q = some x) : (fs.addDir r).lookup q = some x := by
  unfold FS.lookup at h ⊢
  unfold FS.addDir
  rw [find?_append_or]
  rcases Option.map_eq_some'.mp h with ⟨e, he, hx⟩
  rw [he]
  show some e.2 = some x
  rw [hx]

theorem lookup_addDir_self (fs : FS) (r : List String)
    (h : fs.lookup r = none) : (fs.addDir r).lookup r = some FSNode.dir := by
  unfold FS.lookup at h ⊢
  unfold FS.addDir
  rw [find?_append_or]
  rw [Option.map_eq_none'] at h
  rw [h, Option.none_or]
  simp

theorem lookup_addDir_of_ne (fs : FS) (r q : List String)
    (h : ¬ normalize r = normalize q) :
    (fs.addDir r).lookup q = fs.lookup q := by
  unfold FS.lookup FS.addDir
  rw [find?_append_or]
  have hone : ([(r, FSNode.dir)].find?
      (fun e => normalize e.1 == normalize q)) = none := by
    rw [List.find?_eq_none]
    intro e he
    simp only [List.mem_singleton] at he
    subst he
    exact fun hb => h (beq_iff_eq.mp hb)
  rw [hone, Option.or_none]

theorem lookup_addDir_none_cases (fs : FS) (r q : List String)
    (h : fs.lookup q = none) :
    (fs.addDir r).lookup q = none ∨
      (fs.addDir r).lookup q = some FSNode.dir := by
  by_cases hrq : normalize r = normalize q
  · right
    unfold FS.lookup at h ⊢
    unfold FS.addDir
    rw [find?_append_or]
    rw [Option.map_eq_none'] at h
    rw [h, Option.none_or]
    have hb : (normalize r == normalize q) = true := beq_iff_eq.mpr hrq
    simp [List.find?, hb]
  · left
    rw [lookup_addDir_of_ne fs r q hrq, h]

theorem isfile_addDir (fs : FS) (r q : List String) :
    (fs.addDir r).isfile q = fs.isfile q := by
  cases hq : fs.lookup q with
  | some x =>
    unfold FS.isfile
    rw [lookup_addDir_some fs r q x hq, hq]
  | none =>
    rcases lookup_addDir_none_cases fs r q hq with h1 | h1 <;>
      unfold FS.isfile <;> rw [h1, hq]

theorem lookup_makedirsGo_dir (full : List String) (l : List (List String))
    (fs : FS) (q : List String) (h : fs.lookup q = some FSNode.dir) :
    ((FS.makedirsGo full fs l).1).lookup q = some FSNode.dir := by
  induction l generalizing fs with
  | nil => exact h
  | cons r rest ih =>
    cases hl : fs.lookup r with
    | none =>
      simp only [FS.makedirsGo, hl]
      exact ih _ (lookup_addDir_some fs r q _ h)
    | some x =>
      cases x with
      | dir =>
        simp only [FS.makedirsGo, hl]
        exact ih _ h
      | file c =>
        simp only [FS.makedirsGo, hl]
        split <;> exact h

theorem isfile_makedirsGo (full : List String) (l : List (List String))
    (fs : FS) (q : List String) :
    ((FS.makedirsGo full fs l).1).isfile q = fs.isfile q := by
  induction l generalizing fs with
  | nil => rfl
  | cons r rest ih =>
    cases hl : fs.lookup r with
    | none =>
      simp only [FS.makedirsGo, hl]
      rw [ih]
      exact isfile_addDir fs r q
    | some x =>
      cases x with
      | dir =>
        simp only [FS.makedirsGo, hl]
        exact ih fs
      | file c =>
        simp only [FS.makedirsGo, hl]
        split <;> rfl

theorem makedirsGo_sound (full : List String) (l : List (List String))
    (fs : FS) (h : ∀ r ∈ l, fs.isfile r = false) :
    (FS.makedirsGo full fs l).2 = none ∧
      ∀ q ∈ l, ((FS.makedirsGo full fs l).1).lookup q = some FSNode.dir := by
  induction l generalizing fs with
  | nil => exact ⟨rfl, fun q hq => absurd hq (List.not_mem_nil q)⟩
  | cons r rest ih =>
    cases hl : fs.lookup r with
    | none =>
      simp only [FS.makedirsGo, hl]
      have hrest : ∀ r' ∈ rest, (fs.addDir r).isfile r' = false := by
        intro r' hr'
        rw [isfile_addDir]
        exact h r' (List.mem_cons_of_mem r hr')
      rcases ih (fs.addDir r) hrest with ⟨h1, h2⟩
      refine ⟨h1, fun q hq => ?_⟩
      rcases List.mem_cons.mp hq with hq | hq
      · subst hq
        exact lookup_makedirsGo_dir full rest _ q (lookup_addDir_self fs q hl)
      · exact h2 q hq
    | some x =>
      cases x with
      | dir =>
        simp only [FS.makedirsGo, hl]
        have hrest : ∀ r' ∈ rest, fs.isfile r' = false :=
          fun r' hr' => h r' (List.mem_cons_of_mem r hr')
        rcases ih fs hrest with ⟨h1, h2⟩
        refine ⟨h1, fun q hq => ?_⟩
        rcases List.mem_cons.mp hq with hq | hq
        · subst hq
          exact lookup_makedirsGo_dir full rest fs q hl
        · exact h2 q hq
      | file c =>
        exfalso
        have hfa := h r (List.mem_cons_self r rest)
        unfold FS.isfile at hfa
        rw [hl] at hfa
        simp at hfa

theorem makedirsGo_id (full : List String) (l : List (List String))
    (fs : FS) (h : ∀ r ∈ l, fs.lookup r = some FSNode.dir) :
    FS.makedirsGo full fs l = (fs, none) := by
  induction l with
  | nil => rfl
  | cons r rest ih =>
    simp only [FS.makedirsGo, h r (List.mem_cons_self r rest)]
    exact ih (fun r' hr' => h r' (List.mem_cons_of_mem r hr'))

theorem isfile_makedirs (fs : FS) (p q : List String) :
    ((fs.makedirs p).1).isfile q = fs.isfile q :=
  isfile_makedirsGo (normalize p) (normalize p).inits fs q

theorem makedirs_sound (fs : FS) (p : List String)
    (h : ∀ q ∈ (normalize p).inits, fs.isfile q = false) :
    (fs.makedirs p).2 = none ∧
      ∀ q ∈ (normalize p).inits,
        ((fs.makedirs p).1).lookup q = some FSNode.dir :=
  makedirsGo_sound (normalize p) (normalize p).inits fs h

theorem makedirs_id (fs : FS) (p : List String)
    (h : ∀ q ∈ (normalize p).inits, fs.lookup q = some FSNode.dir) :
    fs.makedirs p = (fs, none) :=
  makedirsGo_id (normalize p) (normalize p).inits fs h


theorem openWrite_isfile_of_ok (fs fs' : FS) (t : List String)
    (c : List Nat) (h : fs.openWrite t c = (fs', none)) (q : List String) :
    fs'.isfile q = ((normalize q == normalize t) || fs.isfile q) := by
  unfold FS.openWrite at h
  by_cases h1 : fs.isfile t.dropLast = true
  · rw [if_pos h1] at h
    exact absurd (congrArg Prod.snd h) (by simp)
  · rw [if_neg h1] at h
    by_cases h2 : fs.lookup t = some FSNode.dir
    · rw [if_pos h2] at h
      exact absurd (congrArg Prod.snd h) (by simp)
    · rw [if_neg h2] at h
      have hf : fs.setNode t (FSNode.file c) = fs' := congrArg Prod.fst h
      rw [← hf]
      exact isfile_setNode fs t q c

theorem openWrite_of_checks (fs : FS) (t : List String) (c : List Nat)
    (hpar : fs.lookup t.dropLast = some FSNode.dir)
    (htar : ¬ fs.lookup t = some FSNode.dir) :
    fs.openWrite t c = (fs.setNode t (FSNode.file c), none) := by
  have h1 : fs.isfile t.dropLast = false := by
    unfold FS.isfile
    rw [hpar]
  unfold FS.openWrite
  rw [if_neg (by simp [h1]), if_neg htar]

theorem writeEntry_isfile_of_ok (fs fs' : FS) (base : List String)
    (e : List String × List Nat)
    (h : fs.writeEntry base e = (fs', none)) (q : List String) :
    fs'.isfile q =
      ((normalize q == normalize (base ++ sanitizeMember e.1)) ||
        fs.isfile q) := by
  simp only [FS.writeEntry] at h
  by_cases h1 :
      (fs.lookup (normalize (base ++ sanitizeMember e.1)).dropLast).isSome =
        true
  · rw [if_pos h1] at h
    have h2 : fs.openWrite (normalize (base ++ sanitizeMember e.1)) e.2 =
        (fs', none) := h
    have h3 := openWrite_isfile_of_ok fs fs' _ e.2 h2 q
    rw [h3, normalize_idem]
  · rw [if_neg h1] at h
    rcases hmd : fs.makedirs (normalize (base ++ sanitizeMember e.1)).dropLast
      with ⟨fsm, merr⟩
    rw [hmd] at h
    cases merr with
    | some err => exact absurd (congrArg Prod.snd h) (by simp)
    | none =>
      have h2 : fsm.openWrite (normalize (base ++ sanitizeMember e.1)) e.2 =
          (fs', none) := h
      have h3 := openWrite_isfile_of_ok fsm fs' _ e.2 h2 q
      rw [h3, normalize_idem]
      have h4 : fsm.isfile q = fs.isfile q := by
        have h5 := isfile_makedirs fs
          (normalize (base ++ sanitizeMember e.1)).dropLast q
        rw [hmd] at h5
        exact h5
      rw [h4]

theorem writeEntry_of_checks (fs : FS) (base : List String)
    (e : List String × List Nat)
    (hpar : fs.lookup (normalize (base ++ sanitizeMember e.1)).dropLast =
      some FSNode.dir)
    (htar : ¬ fs.lookup (normalize (base ++ sanitizeMember e.1)) =
      some FSNode.dir) :
    fs.writeEntry base e =
      (fs.setNode (normalize (base ++ sanitizeMember e.1))
        (FSNode.file e.2), none) := by
  simp only [FS.writeEntry, hpar, Option.isSome_some, ite_true]
  exact openWrite_of_checks fs _ e.2 hpar htar

theorem extractAll_isfile_of_ok (base : List String)
    (es : List (List String × List Nat)) (fs : FS) (q : List String)
    (h : (fs.extractAll base es).2 = none) :
    ((fs.extractAll base es).1).isfile q =
      (fs.isfile q ||
        es.any (fun e =>
          normalize q == normalize (base ++ sanitizeMember e.1))) := by
  induction es generalizing fs with
  | nil => simp [FS.extractAll]
  | cons e rest ih =>
    rcases hw : fs.writeEntry base e with ⟨fs1, werr⟩
    cases werr with
    | some err =>
      exfalso
      simp only [FS.extractAll, hw] at h
      exact absurd h (by simp)
    | none =>
      simp only [FS.extractAll, hw] at h ⊢
      rw [ih fs1 h, writeEntry_isfile_of_ok fs fs1 base e hw q,
        List.any_cons]
      cases (normalize q == normalize (base ++ sanitizeMember e.1)) <;>
        cases fs.isfile q <;> simp

theorem extractAll_singleton_of_checks (fs : FS) (base : List String)
    (p : List String) (c : List Nat)
    (hpar : fs.lookup (normalize (base ++ sanitizeMember p)).dropLast =
      some FSNode.dir)
    (htar : ¬ fs.lookup (normalize (base ++ sanitizeMember p)) =
      some FSNode.dir) :
    fs.extractAll base [(p, c)] =
      (fs.setNode (normalize (base ++ sanitizeMember p)) (FSNode.file c),
        none) := by
  have hw := writeEntry_of_checks fs base (p, c) hpar htar
  simp only [FS.extractAll, hw]

theorem process_skip (sd : List String) (net : Option HttpResponse)
    (fs0 : FS) (h : fs0.isfile (data_dir sd ++ ["Index.txt"]) = true) :
    process_ucd sd net fs0 = (⟨fs0, ["", skipMsg], false⟩, none) := by
  simp [process_ucd, h]

theorem process_mkfail (sd : List String) (net : Option HttpResponse)
    (fs0 fs1 : FS) (err : PyError)
    (hs : fs0.isfile (data_dir sd ++ ["Index.txt"]) = false)
    (hmd : fs0.makedirs (data_dir sd) = (fs1, some err)) :
    process_ucd sd net fs0 = (⟨fs1, [""], false⟩, some err) := by
  simp [process_ucd, hs, hmd]

theorem process_net_none (sd : List String) (fs0 fs1 : FS)
    (hs : fs0.isfile (data_dir sd ++ ["Index.txt"]) = false)
    (hmd : fs0.makedirs (data_dir sd) = (fs1, none)) :
    process_ucd sd none fs0 =
      (⟨fs1, ["", downloadingMsg], true⟩, some PyError.urlError) := by
  simp [process_ucd, hs, hmd]

theorem process_non200 (sd : List String) (fs0 fs1 : FS)
    (resp : HttpResponse)
    (hs : fs0.isfile (data_dir sd ++ ["Index.txt"]) = false)
    (hmd : fs0.makedirs (data_dir sd) = (fs1, none))
    (h : resp.status ≠ 200) :
    process_ucd sd (some resp) fs0 =
      (⟨fs1, ["", downloadingMsg, failMsg resp.status], true⟩, none) := by
  simp [process_ucd, hs, hmd, h]

theorem process_badzip (sd : List String) (fs0 fs1 : FS)
    (resp : HttpResponse)
    (hs : fs0.isfile (data_dir sd ++ ["Index.txt"]) = false)
    (hmd : fs0.makedirs (data_dir sd) = (fs1, none))
    (h200 : resp.status = 200) (hz : resp.body.zipEntries = none) :
    process_ucd sd (some resp) fs0 =
      (⟨fs1, ["", downloadingMsg, downloadedMsg resp.body.size], true⟩,
        some PyError.badZipFile) := by
  simp [process_ucd, hs, hmd, h200, hz]

theorem process_extract_err (sd : List String) (fs0 fs1 fs2 : FS)
    (resp : HttpResponse) (es : List (List String × List Nat))
    (err : PyError)
    (hs : fs0.isfile (data_dir sd ++ ["Index.txt"]) = false)
    (hmd : fs0.makedirs (data_dir sd) = (fs1, none))
    (h200 : resp.status = 200) (hz : resp.body.zipEntries = some es)
    (hex : fs1.extractAll (data_dir sd) es = (fs2, some err)) :
    process_ucd sd (some resp) fs0 =
      (⟨fs2, ["", downloadingMsg, downloadedMsg resp.body.size], true⟩,
        some err) := by
  simp [process_ucd, hs, hmd, h200, hz, hex]

theorem process_extract_ok (sd : List String) (fs0 fs1 fs2 : FS)
    (resp : HttpResponse) (es : List (List String × List Nat))
    (hs : fs0.isfile (data_dir sd ++ ["Index.txt"]) = false)
    (hmd : fs0.makedirs (data_dir sd) = (fs1, none))
    (h200 : resp.status = 200) (hz : resp.body.zipEntries = some es)
    (hex : fs1.extractAll (data_dir sd) es = (fs2, none)) :
    process_ucd sd (some resp) fs0 =
      (⟨fs2, ["", downloadingMsg, downloadedMsg resp.body.size,
        extractedMsg], true⟩, none) := by
  simp [process_ucd, hs, hmd, h200, hz, hex]

theorem requested_of_no_sentinel (sd : List String)
    (net : Option HttpResponse) (fs0 : FS)
    (hs : fs0.isfile (data_dir sd ++ ["Index.txt"]) = false)
    (hmk : (fs0.makedirs (data_dir sd)).2 = none) :
    (process_ucd sd net fs0).1.requested = true := by
  rcases hmd : fs0.makedirs (data_dir sd) with ⟨fs1, merr⟩
  obtain rfl : merr = none := by rw [hmd] at hmk; exact hmk
  rcases net with _ | resp
  · rw [process_net_none sd fs0 fs1 hs hmd]
  · by_cases h2 : resp.status = 200
    · cases hz : resp.body.zipEntries with
      | none => rw [process_badzip sd fs0 fs1 resp hs hmd h2 hz]
      | some es =>
        rcases hex : fs1.extractAll (data_dir sd) es with ⟨fs2, xerr⟩
        cases xerr with
        | some err =>
          rw [process_extract_err sd fs0 fs1 fs2 resp es err hs hmd h2 hz hex]
        | none =>
          rw [process_extract_ok sd fs0 fs1 fs2 resp es hs hmd h2 hz hex]
    · rw [process_non200 sd fs0 fs1 resp hs hmd h2]


/-- C1: when `Index.txt` is a regular file directly inside the computed
output directory, `process_ucd` prints only the blank line and the skip
message, issues no HTTP request, raises nothing, and leaves the
filesystem exactly as it was. -/
theorem skip_when_sentinel_present (sd : List String)
    (net : Option HttpResponse) (fs0 : FS)
    (h : fs0.isfile (data_dir sd ++ ["Index.txt"]) = true) :
    process_ucd sd net fs0 = (⟨fs0, ["", skipMsg], false⟩, none) :=
  process_skip sd net fs0 h

/-- Witness for C1 at a concrete populated filesystem. -/
theorem skip_when_sentinel_present_witness :
    process_ucd ["home", "unidex", "scripts"] none
        ⟨[(["home", "unidex", "data", "ucd", "Index.txt"],
          FSNode.file [85, 67, 68])]⟩ =
      (⟨⟨[(["home", "unidex", "data", "ucd", "Index.txt"],
          FSNode.file [85, 67, 68])]⟩, ["", skipMsg], false⟩, none) :=
  skip_when_sentinel_present _ _ _ (by decide)

/-- C2: a response was received, so the directory-creation step had
already succeeded; on a status other than 200 the fetcher logs the
status code, raises nothing, keeps the filesystem produced by the
directory creation, and no path is a regular file afterwards that was
not one before. -/
theorem non200_soft_failure (sd : List String) (resp : HttpResponse)
    (fs0 : FS)
    (hs : fs0.isfile (data_dir sd ++ ["Index.txt"]) = false)
    (hmk : (fs0.makedirs (data_dir sd)).2 = none)
    (h : resp.status ≠ 200) :
    (process_ucd sd (some resp) fs0).2 = none ∧
    (process_ucd sd (some resp) fs0).1.out =
      ["", downloadingMsg, failMsg resp.status] ∧
    (process_ucd sd (some resp) fs0).1.fs = (fs0.makedirs (data_dir sd)).1 ∧
    FS.isfile ((process_ucd sd (some resp) fs0).1.fs) = FS.isfile fs0 := by
  rcases hmd : fs0.makedirs (data_dir sd) with ⟨fs1, merr⟩
  obtain rfl : merr = none := by rw [hmd] at hmk; exact hmk
  rw [process_non200 sd fs0 fs1 resp hs hmd h]
  refine ⟨rfl, rfl, rfl, ?_⟩
  funext q
  have h5 := isfile_makedirs fs0 (data_dir sd) q
  rw [hmd] at h5
  exact h5

/-- Witness for C2 at status 404 on an empty filesystem. -/
theorem non200_soft_failure_witness :
    (process_ucd ["home", "unidex", "scripts"]
        (some ⟨404, ⟨0, none⟩⟩) ⟨[]⟩).2 = none ∧
    (process_ucd ["home", "unidex", "scripts"]
        (some ⟨404, ⟨0, none⟩⟩) ⟨[]⟩).1.out =
      ["", downloadingMsg, failMsg 404] ∧
    (process_ucd ["home", "unidex", "scripts"]
        (some ⟨404, ⟨0, none⟩⟩) ⟨[]⟩).1.fs =
      (FS.makedirs ⟨[]⟩ (data_dir ["home", "unidex", "scripts"])).1 ∧
    FS.isfile ((process_ucd ["home", "unidex", "scripts"]
        (some ⟨404, ⟨0, none⟩⟩) ⟨[]⟩).1.fs) = FS.isfile ⟨[]⟩ :=
  non200_soft_failure _ _ _ (by decide) (by decide) (by decide)

/-- C3: once the run reaches the request (the directory creation
succeeded), the only failure handled is the non-200 status (clean
return, no exception); a transport fault and a ZIP-decoding fault both
escape `process_ucd`, and `main` adds no handling of its own. -/
theorem only_non200_is_caught (sd : List String) (fs0 : FS) (n : Nat)
    (resp : HttpResponse)
    (hs : fs0.isfile (data_dir sd ++ ["Index.txt"]) = false)
    (hmk : (fs0.makedirs (data_dir sd)).2 = none)
    (h200 : resp.status ≠ 200) :
    (process_ucd sd none fs0).2 = some PyError.urlError ∧
    (process_ucd sd (some ⟨200, ⟨n, none⟩⟩) fs0).2 =
      some PyError.badZipFile ∧
    (process_ucd sd (some resp) fs0).2 = none ∧
    main sd none fs0 = process_ucd sd none fs0 ∧
    main sd (some ⟨200, ⟨n, none⟩⟩) fs0 =
      process_ucd sd (some ⟨200, ⟨n, none⟩⟩) fs0 := by
  rcases hmd : fs0.makedirs (data_dir sd) with ⟨fs1, merr⟩
  obtain rfl : merr = none := by rw [hmd] at hmk; exact hmk
  refine ⟨?_, ?_, ?_, rfl, rfl⟩
  · rw [process_net_none sd fs0 fs1 hs hmd]
  · rw [process_badzip sd fs0 fs1 ⟨200, ⟨n, none⟩⟩ hs hmd rfl rfl]
  · rw [process_non200 sd fs0 fs1 resp hs hmd h200]

/-- Witness for C3 on an empty filesystem. -/
theorem only_non200_is_caught_witness :
    (process_ucd ["home", "unidex", "scripts"] none ⟨[]⟩).2 =
      some PyError.urlError ∧
    (process_ucd ["home", "unidex", "scripts"]
        (some ⟨200, ⟨7, none⟩⟩) ⟨[]⟩).2 = some PyError.badZipFile ∧
    (process_ucd ["home", "unidex", "scripts"]
        (some ⟨503, ⟨0, none⟩⟩) ⟨[]⟩).2 = none ∧
    main ["home", "unidex", "scripts"] none ⟨[]⟩ =
      process_ucd ["home", "unidex", "scripts"] none ⟨[]⟩ ∧
    main ["home", "unidex", "scripts"] (some ⟨200, ⟨7, none⟩⟩) ⟨[]⟩ =
      process_ucd ["home", "unidex", "scripts"] (some ⟨200, ⟨7, none⟩⟩)
        ⟨[]⟩ :=
  only_non200_is_caught _ _ 7 ⟨503, ⟨0, none⟩⟩ (by decide) (by decide)
    (by decide)

/-- C4: the computed output directory is a function of the script
location alone (the working directory argument is ignored), and it
resolves to the grandparent of the script file joined with `data/ucd`. -/
theorem data_dir_location_only (c₁ c₂ sd : List String)
    (h : plainPath sd = true) :
    data_dir_from c₁ sd = data_dir_from c₂ sd ∧
    normalize (data_dir_from c₁ sd) = sd.dropLast ++ ["data", "ucd"] :=
  ⟨rfl, normalize_data_dir sd h⟩

/-- Witness for C4 at two different working directories. -/
theorem data_dir_location_only_witness :
    data_dir_from ["tmp"] ["home", "unidex", "scripts"] =
      data_dir_from ["var", "log"] ["home", "unidex", "scripts"] ∧
    normalize (data_dir_from ["tmp"] ["home", "unidex", "scripts"]) =
      ["home", "unidex", "data", "ucd"] :=
  data_dir_location_only ["tmp"] ["var", "log"]
    ["home", "unidex", "scripts"] (by decide)

/-- C5: on a 200 response with a valid ZIP body the run performs exactly
the extraction of the members, in archive order, below the output
directory (including the propagation of any extraction fault); a
one-member archive holding `Index.txt`, extracted where the target is
not an existing directory and its parent is a directory, leaves exactly
that file with its archived content at the sentinel path, overwriting a
previous regular file there if any. -/
theorem extraction_success (sd : List String) (fs0 : FS) (n : Nat)
    (es : List (List String × List Nat))
    (hs : fs0.isfile (data_dir sd ++ ["Index.txt"]) = false)
    (hmk : (fs0.makedirs (data_dir sd)).2 = none) :
    (process_ucd sd (some ⟨200, ⟨n, some es⟩⟩) fs0).1.fs =
      (((fs0.makedirs (data_dir sd)).1).extractAll (data_dir sd) es).1 ∧
    (process_ucd sd (some ⟨200, ⟨n, some es⟩⟩) fs0).2 =
      (((fs0.makedirs (data_dir sd)).1).extractAll (data_dir sd) es).2 ∧
    (∀ p c, es = [(p, c)] → p.all keepComp = true →
      ¬ ((fs0.makedirs (data_dir sd)).1).lookup
          (normalize (data_dir sd) ++ p) = some FSNode.dir →
      ((fs0.makedirs (data_dir sd)).1).lookup
          ((normalize (data_dir sd) ++ p).dropLast) = some FSNode.dir →
      (process_ucd sd (some ⟨200, ⟨n, some es⟩⟩) fs0).2 = none ∧
      ((process_ucd sd (some ⟨200, ⟨n, some es⟩⟩) fs0).1.fs).lookup
        (normalize (data_dir sd) ++ p) = some (FSNode.file c)) := by
  rcases hmd : fs0.makedirs (data_dir sd) with ⟨fs1, merr⟩
  obtain rfl : merr = none := by rw [hmd] at hmk; exact hmk
  rcases hex : fs1.extractAll (data_dir sd) es with ⟨fs2, xerr⟩
  have hfs2 : ∀ xe, fs1.extractAll (data_dir sd) es = (fs2, xe) →
      (process_ucd sd (some ⟨200, ⟨n, some es⟩⟩) fs0).1.fs = fs2 ∧
      (process_ucd sd (some ⟨200, ⟨n, some es⟩⟩) fs0).2 = xe := by
    intro xe hxe
    cases xe with
    | some err =>
      rw [process_extract_err sd fs0 fs1 fs2 ⟨200, ⟨n, some es⟩⟩ es err hs
        hmd rfl rfl hxe]
      exact ⟨rfl, rfl⟩
    | none =>
      rw [process_extract_ok sd fs0 fs1 fs2 ⟨200, ⟨n, some es⟩⟩ es hs
        hmd rfl rfl hxe]
      exact ⟨rfl, rfl⟩
  rcases hfs2 xerr hex with ⟨hf, he⟩
  refine ⟨by rw [hf], by rw [he], ?_⟩
  intro p c hes hp hnd hpar
  subst hes
  have hnd1 : ¬ fs1.lookup (normalize (data_dir sd) ++ p) =
      some FSNode.dir := hnd
  have hpar1 : fs1.lookup ((normalize (data_dir sd) ++ p).dropLast) =
      some FSNode.dir := hpar
  have hplain : p.all plainComp = true := keep_imp_plain p hp
  have hsan : sanitizeMember p = p := filter_keep_of_all p hp
  have hkey : normalize (data_dir sd ++ sanitizeMember p) =
      normalize (data_dir sd) ++ p := by
    rw [hsan, normalize_append_plain _ _ hplain]
  have hone := extractAll_singleton_of_checks fs1 (data_dir sd) p c
    (by rw [hkey]; exact hpar1) (by rw [hkey]; exact hnd1)
  have hcomb := hex.symm.trans hone
  have hx2 : fs2 = fs1.setNode (normalize (data_dir sd ++ sanitizeMember p))
      (FSNode.file c) := congrArg Prod.fst hcomb
  have hxe : xerr = none := congrArg Prod.snd hcomb
  subst hxe
  refine ⟨he, ?_⟩
  rw [hf, hx2]
  have hplainT : plainPath (normalize (data_dir sd) ++ p) = true := by
    unfold plainPath
    rw [List.all_append]
    rw [plain_normalize (data_dir sd), hplain]
    rfl
  have heq2 : normalize (normalize (data_dir sd) ++ p) =
      normalize (normalize (data_dir sd ++ sanitizeMember p)) := by
    rw [normalize_idem, hkey]
    exact normalize_plain _ hplainT
  exact lookup_setNode_of_eq fs1 _ _ _ heq2

/-- Witness for C5: a one-member archive holding `Index.txt`, extracted
into a freshly created output directory. -/
theorem extraction_success_witness :
    (process_ucd ["home", "unidex", "scripts"]
        (some ⟨200, ⟨3, some [(["Index.txt"], [49, 50, 51])]⟩⟩) ⟨[]⟩).2 =
      none ∧
    ((process_ucd ["home", "unidex", "scripts"]
        (some ⟨200, ⟨3, some [(["Index.txt"], [49, 50, 51])]⟩⟩)
        ⟨[]⟩).1.fs).lookup
      (normalize (data_dir ["home", "unidex", "scripts"]) ++ ["Index.txt"]) =
      some (FSNode.file [49, 50, 51]) := by
  have h := extraction_success ["home", "unidex", "scripts"] ⟨[]⟩ 3
    [(["Index.txt"], [49, 50, 51])] (by decide) (by decide)
  exact h.2.2 ["Index.txt"] [49, 50, 51] rfl (by decide) (by decide)
    (by decide)

/-- C6: on a 200 response with a decodable body (the request having been
reached, directory creation succeeded), the first three printed lines
are the blank line, the download banner and the byte count of the whole
in-memory body — the count is reported before any extraction outcome —
the filesystem is touched only by directory creation and by extraction
of the decoded members (never by writing the compressed bytes), and the
extraction confirmation is printed exactly when extraction succeeds. -/
theorem body_counted_before_extraction (sd : List String) (fs0 : FS)
    (resp : HttpResponse) (es : List (List String × List Nat))
    (hs : fs0.isfile (data_dir sd ++ ["Index.txt"]) = false)
    (hmk : (fs0.makedirs (data_dir sd)).2 = none)
    (h200 : resp.status = 200) (hz : resp.body.zipEntries = some es) :
    List.take 3 ((process_ucd sd (some resp) fs0).1.out) =
      ["", downloadingMsg, downloadedMsg resp.body.size] ∧
    (process_ucd sd (some resp) fs0).1.fs =
      (((fs0.makedirs (data_dir sd)).1).extractAll (data_dir sd) es).1 ∧
    ((((fs0.makedirs (data_dir sd)).1).extractAll (data_dir sd) es).2 =
        none →
      (process_ucd sd (some resp) fs0).1.out =
        ["", downloadingMsg, downloadedMsg resp.body.size,
          extractedMsg]) := by
  rcases hmd : fs0.makedirs (data_dir sd) with ⟨fs1, merr⟩
  obtain rfl : merr = none := by rw [hmd] at hmk; exact hmk
  rcases hex : fs1.extractAll (data_dir sd) es with ⟨fs2, xerr⟩
  cases xerr with
  | some err =>
    rw [process_extract_err sd fs0 fs1 fs2 resp es err hs hmd h200 hz hex]
    refine ⟨rfl, rfl, ?_⟩
    intro hcontra
    exact absurd hcontra (by simp)
  | none =>
    rw [process_extract_ok sd fs0 fs1 fs2 resp es hs hmd h200 hz hex]
    exact ⟨rfl, rfl, fun _ => rfl⟩

/-- Witness for C6 at a 5-byte body decoding to one member. -/
theorem body_counted_before_extraction_witness :
    List.take 3 ((process_ucd ["home", "unidex", "scripts"]
        (some ⟨200, ⟨5, some [(["Index.txt"], [10])]⟩⟩) ⟨[]⟩).1.out) =
      ["", downloadingMsg, downloadedMsg 5] ∧
    (process_ucd ["home", "unidex", "scripts"]
        (some ⟨200, ⟨5, some [(["Index.txt"], [10])]⟩⟩) ⟨[]⟩).1.out =
      ["", downloadingMsg, downloadedMsg 5, extractedMsg] := by
  have h := body_counted_before_extraction ["home", "unidex", "scripts"]
    ⟨[]⟩ ⟨200, ⟨5, some [(["Index.txt"], [10])]⟩⟩ [(["Index.txt"], [10])]
    (by decide) (by decide) rfl rfl
  exact ⟨h.1, h.2.2 (by decide)⟩

/-- C7: with the sentinel absent the directory-creation step runs before
the request — the filesystem of the faulted-request run is exactly its
result, and when it succeeds the fault of that run is the transport
fault, raised after creation; when no ancestor is occupied by a regular
file the creation succeeds and afterwards the output directory and every
ancestor exist as directories; when they all already exist as
directories the step changes nothing and raises nothing (exist_ok). -/
theorem directory_created_before_request (sd : List String) (fs0 : FS)
    (hs : fs0.isfile (data_dir sd ++ ["Index.txt"]) = false) :
    (process_ucd sd none fs0).1.fs = (fs0.makedirs (data_dir sd)).1 ∧
    ((fs0.makedirs (data_dir sd)).2 = none →
      (process_ucd sd none fs0).2 = some PyError.urlError) ∧
    ((∀ q ∈ (normalize (data_dir sd)).inits, fs0.isfile q = false) →
      (fs0.makedirs (data_dir sd)).2 = none ∧
      ∀ q ∈ (normalize (data_dir sd)).inits,
        ((fs0.makedirs (data_dir sd)).1).lookup q = some FSNode.dir) ∧
    ((∀ q ∈ (normalize (data_dir sd)).inits,
        fs0.lookup q = some FSNode.dir) →
      fs0.makedirs (data_dir sd) = (fs0, none)) := by
  refine ⟨?_, ?_, makedirs_sound fs0 _, makedirs_id fs0 _⟩
  · rcases hmd : fs0.makedirs (data_dir sd) with ⟨fs1, merr⟩
    cases merr with
    | some err =>
      rw [process_mkfail sd none fs0 fs1 err hs hmd]
    | none =>
      rw [process_net_none sd fs0 fs1 hs hmd]
  · intro hmk
    rcases hmd : fs0.makedirs (data_dir sd) with ⟨fs1, merr⟩
    obtain rfl : merr = none := by rw [hmd] at hmk; exact hmk
    rw [process_net_none sd fs0 fs1 hs hmd]

/-- Witness for C7 on an empty filesystem, checking the created
directory itself. -/
theorem directory_created_before_request_witness :
    (process_ucd ["home", "unidex", "scripts"] none ⟨[]⟩).1.fs =
      (FS.makedirs ⟨[]⟩ (data_dir ["home", "unidex", "scripts"])).1 ∧
    (process_ucd ["home", "unidex", "scripts"] none ⟨[]⟩).2 =
      some PyError.urlError ∧
    (FS.makedirs ⟨[]⟩ (data_dir ["home", "unidex", "scripts"])).2 = none ∧
    ((FS.makedirs ⟨[]⟩ (data_dir ["home", "unidex", "scripts"])).1).lookup
      ["home", "unidex", "data", "ucd"] = some FSNode.dir := by
  have h := directory_created_before_request ["home", "unidex", "scripts"]
    ⟨[]⟩ (by decide)
  have h3 := h.2.2.1 (by decide)
  exact ⟨h.1, h.2.1 h3.1, h3.1,
    h3.2 ["home", "unidex", "data", "ucd"] (by decide)⟩

/-- C8: when the sentinel path holds a directory rather than a regular
file (so, on a realisable tree, no ancestor of the output directory is a
regular file), the run does not skip: the directory creation succeeds,
the HTTP request is issued for every network behaviour, and the
faulted-request run carries exactly the created directories. -/
theorem sentinel_directory_no_skip (sd : List String)
    (net : Option HttpResponse) (fs0 : FS)
    (h : fs0.lookup (data_dir sd ++ ["Index.txt"]) = some FSNode.dir)
    (hanc : ∀ q ∈ (normalize (data_dir sd)).inits, fs0.isfile q = false) :
    (process_ucd sd net fs0).1.requested = true ∧
    (fs0.makedirs (data_dir sd)).2 = none ∧
    (process_ucd sd none fs0).1.fs = (fs0.makedirs (data_dir sd)).1 := by
  have hs : fs0.isfile (data_dir sd ++ ["Index.txt"]) = false := by
    unfold FS.isfile
    rw [h]
  have hmk := (makedirs_sound fs0 (data_dir sd) hanc).1
  refine ⟨requested_of_no_sentinel sd net fs0 hs hmk, hmk, ?_⟩
  rcases hmd : fs0.makedirs (data_dir sd) with ⟨fs1, merr⟩
  obtain rfl : merr = none := by rw [hmd] at hmk; exact hmk
  rw [process_net_none sd fs0 fs1 hs hmd]

/-- Witness for C8 with a directory stored at the sentinel path. -/
theorem sentinel_directory_no_skip_witness :
    (process_ucd ["home", "unidex", "scripts"] none
        ⟨[(["home", "unidex", "data", "ucd", "Index.txt"],
          FSNode.dir)]⟩).1.requested = true ∧
    (FS.makedirs
        ⟨[(["home", "unidex", "data", "ucd", "Index.txt"], FSNode.dir)]⟩
        (data_dir ["home", "unidex", "scripts"])).2 = none ∧
    (process_ucd ["home", "unidex", "scripts"] none
        ⟨[(["home", "unidex", "data", "ucd", "Index.txt"],
          FSNode.dir)]⟩).1.fs =
      (FS.makedirs
        ⟨[(["home", "unidex", "data", "ucd", "Index.txt"], FSNode.dir)]⟩
        (data_dir ["home", "unidex", "scripts"])).1 :=
  sentinel_directory_no_skip _ _ _ (by decide) (by decide)


/-- C9: the fetcher never writes `Index.txt` itself — after the skipped,
faulted, non-200 and bad-ZIP runs the sentinel is still not a regular
file (directory creation adds only directory nodes) — and after a run
whose extraction succeeds the sentinel is a regular file exactly when
the archive contained a top-level `Index.txt` member. -/
theorem sentinel_only_from_archive (sd : List String) (fs0 : FS) (n : Nat)
    (resp : HttpResponse) (es : List (List String × List Nat))
    (hs : fs0.isfile (data_dir sd ++ ["Index.txt"]) = false)
    (hes : es.all (fun e => e.1.all keepComp) = true)
    (h200 : resp.status ≠ 200)
    (hmk : (fs0.makedirs (data_dir sd)).2 = none)
    (hok : (((fs0.makedirs (data_dir sd)).1).extractAll (data_dir sd)
      es).2 = none) :
    ((process_ucd sd (some ⟨200, ⟨n, some es⟩⟩) fs0).1.fs.isfile
        (data_dir sd ++ ["Index.txt"]) = true ↔
      ∃ e ∈ es, e.1 = ["Index.txt"]) ∧
    (process_ucd sd none fs0).1.fs.isfile
      (data_dir sd ++ ["Index.txt"]) = false ∧
    (process_ucd sd (some resp) fs0).1.fs.isfile
      (data_dir sd ++ ["Index.txt"]) = false ∧
    (process_ucd sd (some ⟨200, ⟨n, none⟩⟩) fs0).1.fs.isfile
      (data_dir sd ++ ["Index.txt"]) = false := by
  have key : ∀ e ∈ es,
      ((normalize (data_dir sd ++ ["Index.txt"]) ==
        normalize (data_dir sd ++ sanitizeMember e.1)) = true ↔
        e.1 = ["Index.txt"]) := by
    intro e he
    have hke : e.1.all keepComp = true := by
      rw [List.all_eq_true] at hes
      exact hes e he
    have hpe : e.1.all plainComp = true := keep_imp_plain e.1 hke
    rw [filter_keep_of_all e.1 hke, normalize_append_plain _ _ hpe,
      normalize_append_plain _ _
        (show (["Index.txt"] : List String).all plainComp = true by decide)]
    constructor
    · intro hb
      exact (List.append_cancel_left (beq_iff_eq.mp hb)).symm
    · intro hb
      rw [hb]
      exact beq_self_eq_true _
  rcases hmd : fs0.makedirs (data_dir sd) with ⟨fs1, merr⟩
  obtain rfl : merr = none := by rw [hmd] at hmk; exact hmk
  have hok1 : (fs1.extractAll (data_dir sd) es).2 = none := by
    rw [hmd] at hok; exact hok
  have hf1 : fs1.isfile (data_dir sd ++ ["Index.txt"]) = false := by
    have h5 := isfile_makedirs fs0 (data_dir sd)
      (data_dir sd ++ ["Index.txt"])
    rw [hmd] at h5
    exact h5.trans hs
  rcases hex : fs1.extractAll (data_dir sd) es with ⟨fs2, xerr⟩
  obtain rfl : xerr = none := by rw [hex] at hok1; exact hok1
  refine ⟨?_, ?_, ?_, ?_⟩
  · rw [process_extract_ok sd fs0 fs1 fs2 ⟨200, ⟨n, some es⟩⟩ es hs hmd
      rfl rfl hex]
    show fs2.isfile (data_dir sd ++ ["Index.txt"]) = true ↔
      ∃ e ∈ es, e.1 = ["Index.txt"]
    have hiso := extractAll_isfile_of_ok (data_dir sd) es fs1
      (data_dir sd ++ ["Index.txt"]) hok1
    rw [hex] at hiso
    have hiso2 : fs2.isfile (data_dir sd ++ ["Index.txt"]) =
        (fs1.isfile (data_dir sd ++ ["Index.txt"]) ||
          es.any (fun e => normalize (data_dir sd ++ ["Index.txt"]) ==
            normalize (data_dir sd ++ sanitizeMember e.1))) := hiso
    rw [hiso2, hf1, Bool.false_or, List.any_eq_true]
    constructor
    · rintro ⟨e, he, hf⟩
      exact ⟨e, he, (key e he).mp hf⟩
    · rintro ⟨e, he, hf⟩
      exact ⟨e, he, (key e he).mpr hf⟩
  · rw [process_net_none sd fs0 fs1 hs hmd]
    exact hf1
  · rw [process_non200 sd fs0 fs1 resp hs hmd h200]
    exact hf1
  · rw [process_badzip sd fs0 fs1 ⟨200, ⟨n, none⟩⟩ hs hmd rfl rfl]
    exact hf1

/-- Witness for C9: an archive with a `ReadMe.txt` member and an
`Index.txt` member does produce the sentinel; the faulted run does not. -/
theorem sentinel_only_from_archive_witness :
    (process_ucd ["home", "unidex", "scripts"]
        (some ⟨200, ⟨9, some [(["ReadMe.txt"], [1]),
          (["Index.txt"], [2])]⟩⟩) ⟨[]⟩).1.fs.isfile
      (data_dir ["home", "unidex", "scripts"] ++ ["Index.txt"]) = true ∧
    (process_ucd ["home", "unidex", "scripts"] none ⟨[]⟩).1.fs.isfile
      (data_dir ["home", "unidex", "scripts"] ++ ["Index.txt"]) = false := by
  have h := sentinel_only_from_archive ["home", "unidex", "scripts"] ⟨[]⟩ 9
    ⟨503, ⟨0, none⟩⟩ [(["ReadMe.txt"], [1]), (["Index.txt"], [2])]
    (by decide) (by decide) (by decide) (by decide) (by decide)
  exact ⟨h.1.mpr ⟨(["Index.txt"], [2]), by decide, rfl⟩, h.2.1⟩

/-- C10, counterexample: two filesystems agreeing on the sentinel check
(neither holds the sentinel), given the same network behaviour, print
different lines and raise different exceptions — a regular file at
`data/ucd` makes the directory-creation step raise before the request,
so behaviour does not depend on the filesystem only through the sentinel
check. -/
theorem deterministic_given_sentinel_counterexample :
    FS.isfile ⟨[]⟩
        (data_dir ["home", "unidex", "scripts"] ++ ["Index.txt"]) =
      FS.isfile ⟨[(["home", "unidex", "data", "ucd"], FSNode.file [0])]⟩
        (data_dir ["home", "unidex", "scripts"] ++ ["Index.txt"]) ∧
    ¬ ((process_ucd ["home", "unidex", "scripts"] none ⟨[]⟩).1.out =
        (process_ucd ["home", "unidex", "scripts"] none
          ⟨[(["home", "unidex", "data", "ucd"],
            FSNode.file [0])]⟩).1.out) ∧
    ¬ ((process_ucd ["home", "unidex", "scripts"] none ⟨[]⟩).2 =
        (process_ucd ["home", "unidex", "scripts"] none
          ⟨[(["home", "unidex", "data", "ucd"],
            FSNode.file [0])]⟩).2) := by
  decide

/-- C10, amended: the fetcher is a pure function of the script location,
the response and the filesystem, and its console output, exception and
request decision depend on the filesystem only through the sentinel
check together with the outcomes of the directory-creation and
extraction steps. -/
theorem deterministic_given_sentinel (sd : List String)
    (net : Option HttpResponse) (fs0 fs0' : FS)
    (h1 : fs0.isfile (data_dir sd ++ ["Index.txt"]) =
      fs0'.isfile (data_dir sd ++ ["Index.txt"]))
    (h2 : (fs0.makedirs (data_dir sd)).2 = (fs0'.makedirs (data_dir sd)).2)
    (h3 : ∀ resp es, net = some resp → resp.status = 200 →
      resp.body.zipEntries = some es →
      (((fs0.makedirs (data_dir sd)).1).extractAll (data_dir sd) es).2 =
        (((fs0'.makedirs (data_dir sd)).1).extractAll (data_dir sd)
          es).2) :
    (process_ucd sd net fs0).1.out = (process_ucd sd net fs0').1.out ∧
    (process_ucd sd net fs0).2 = (process_ucd sd net fs0').2 ∧
    (process_ucd sd net fs0).1.requested =
      (process_ucd sd net fs0').1.requested := by
  by_cases hb : fs0.isfile (data_dir sd ++ ["Index.txt"]) = true
  · have hb' : fs0'.isfile (data_dir sd ++ ["Index.txt"]) = true := by
      rw [← h1]; exact hb
    rw [process_skip sd net fs0 hb, process_skip sd net fs0' hb']
    exact ⟨rfl, rfl, rfl⟩
  · have hbF : fs0.isfile (data_dir sd ++ ["Index.txt"]) = false := by
      simpa using hb
    have hbF' : fs0'.isfile (data_dir sd ++ ["Index.txt"]) = false := by
      rw [← h1]; exact hbF
    rcases hmdA : fs0.makedirs (data_dir sd) with ⟨a1, ae⟩
    rcases hmdB : fs0'.makedirs (data_dir sd) with ⟨b1, be⟩
    obtain rfl : ae = be := by rw [hmdA, hmdB] at h2; exact h2
    cases ae with
    | some err =>
      rw [process_mkfail sd net fs0 a1 err hbF hmdA,
          process_mkfail sd net fs0' b1 err hbF' hmdB]
      exact ⟨rfl, rfl, rfl⟩
    | none =>
      rcases net with _ | resp
      · rw [process_net_none sd fs0 a1 hbF hmdA,
            process_net_none sd fs0' b1 hbF' hmdB]
        exact ⟨rfl, rfl, rfl⟩
      · by_cases hst : resp.status = 200
        · cases hz : resp.body.zipEntries with
          | none =>
            rw [process_badzip sd fs0 a1 resp hbF hmdA hst hz,
                process_badzip sd fs0' b1 resp hbF' hmdB hst hz]
            exact ⟨rfl, rfl, rfl⟩
          | some es =>
            have hx := h3 resp es rfl hst hz
            have hx2 : (a1.extractAll (data_dir sd) es).2 =
                (b1.extractAll (data_dir sd) es).2 := by
              rw [hmdA, hmdB] at hx; exact hx
            rcases hexA : a1.extractAll (data_dir sd) es with ⟨a2, axe⟩
            rcases hexB : b1.extractAll (data_dir sd) es with ⟨b2, bxe⟩
            obtain rfl : axe = bxe := by
              rw [hexA, hexB] at hx2; exact hx2
            cases axe with
            | some err =>
              rw [process_extract_err sd fs0 a1 a2 resp es err hbF hmdA
                  hst hz hexA,
                process_extract_err sd fs0' b1 b2 resp es err hbF' hmdB
                  hst hz hexB]
              exact ⟨rfl, rfl, rfl⟩
            | none =>
              rw [process_extract_ok sd fs0 a1 a2 resp es hbF hmdA hst hz
                  hexA,
                process_extract_ok sd fs0' b1 b2 resp es hbF' hmdB hst hz
                  hexB]
              exact ⟨rfl, rfl, rfl⟩
        · rw [process_non200 sd fs0 a1 resp hbF hmdA hst,
              process_non200 sd fs0' b1 resp hbF' hmdB hst]
          exact ⟨rfl, rfl, rfl⟩

/-- Witness for C10: two different sentinel-free filesystems with
agreeing step outcomes produce the same console output, exception and
request decision on a faulting request. -/
theorem deterministic_given_sentinel_witness :
    (process_ucd ["home", "unidex", "scripts"] none ⟨[]⟩).1.out =
      (process_ucd ["home", "unidex", "scripts"] none
        ⟨[(["etc", "hosts"], FSNode.file [0])]⟩).1.out ∧
    (process_ucd ["home", "unidex", "scripts"] none ⟨[]⟩).2 =
      (process_ucd ["home", "unidex", "scripts"] none
        ⟨[(["etc", "hosts"], FSNode.file [0])]⟩).2 ∧
    (process_ucd ["home", "unidex", "scripts"] none ⟨[]⟩).1.requested =
      (process_ucd ["home", "unidex", "scripts"] none
        ⟨[(["etc", "hosts"], FSNode.file [0])]⟩).1.requested :=
  deterministic_given_sentinel _ _ _ _ (by decide) (by decide)
    (fun _ _ hn _ _ => nomatch hn)

end Unidex
